import Mathlib

/-!
Shallow embedding of the Saleor India module (saleor/core/india/{gst,currency,
discount,address}.py, saleor/india/{validators,clients/razorpay_mock}.py,
saleor/payment/gateways/razorpay/upi.py) and proofs about it.

Modelling conventions:
* Python `Decimal` values are modelled as exact rationals (`ℚ`).  The source
  quantizes with `Decimal.quantize(Decimal("0.01"))` under the default context,
  whose rounding mode is ROUND_HALF_EVEN; this is `quantize2` below.  Decimal
  division carries 28 significant digits of precision; for the 2-decimal
  monetary inputs in the validated ranges the distance from any exact quotient
  to a paisa-rounding boundary is far larger than 10⁻²⁰, so modelling division
  exactly yields the same 2-decimal results as the source.
* Python exceptions (`ValueError`, `IndianDiscountError`) are modelled with
  `Except String`; the message is the start of the source's message.
* State codes are handled by the source as strings parsed with `int(...)`;
  they are modelled post-parse as `ℤ` (`Option ℤ` for the optional shipping
  code, `none` standing for Python's `None`/empty string, which are falsy).
* Python strings are modelled as `String`/`List Char`; `str.strip`/`str.upper`
  are modelled for the ASCII range actually used by the data.
-/

/-! ### Decimal model -/

/-- Rounding of a rational to the nearest integer, ties to the even integer:
Python `decimal`'s default rounding mode ROUND_HALF_EVEN. -/
def roundHalfEvenZ (x : ℚ) : ℤ :=
  if x - ⌊x⌋ < 1/2 then ⌊x⌋
  else if 1/2 < x - ⌊x⌋ then ⌊x⌋ + 1
  else if ⌊x⌋ % 2 = 0 then ⌊x⌋ else ⌊x⌋ + 1

/-- Model of `Decimal.quantize(Decimal("0.01"))` under the default (ROUND_HALF_EVEN)
context: round to 2 fractional digits. -/
def quantize2 (x : ℚ) : ℚ := (roundHalfEvenZ (100 * x) : ℚ) / 100

/-- Python `int(d)` on a `Decimal`: truncation toward zero. -/
def pyInt (x : ℚ) : ℤ := if x < 0 then ⌈x⌉ else ⌊x⌋

theorem roundHalfEvenZ_intCast (n : ℤ) : roundHalfEvenZ (n : ℚ) = n := by
  unfold roundHalfEvenZ
  simp

theorem roundHalfEvenZ_abs_le (x : ℚ) : |((roundHalfEvenZ x : ℚ)) - x| ≤ 1/2 := by
  unfold roundHalfEvenZ
  have h0 : (⌊x⌋ : ℚ) ≤ x := Int.floor_le x
  have h1 : x < ⌊x⌋ + 1 := Int.lt_floor_add_one x
  split
  · rw [abs_le]; constructor <;> linarith
  · split
    · rw [abs_le]; push_cast; constructor <;> linarith
    · split
      · rw [abs_le]; constructor <;> linarith
      · rw [abs_le]; push_cast; constructor <;> linarith

/-- At an exact tie `k + 1/2`, ROUND_HALF_EVEN picks the even neighbour. -/
theorem roundHalfEvenZ_half (k : ℤ) :
    roundHalfEvenZ ((k : ℚ) + 1/2) = if k % 2 = 0 then k else k + 1 := by
  have hfl : ⌊(k : ℚ) + 1/2⌋ = k := by
    rw [add_comm, Int.floor_add_int]
    norm_num
  unfold roundHalfEvenZ
  rw [hfl]
  norm_num

/-- Quantization is the identity on values that already have at most two
fractional digits. -/
theorem quantize2_eq_self {x : ℚ} (n : ℤ) (h : 100 * x = (n : ℚ)) : quantize2 x = x := by
  unfold quantize2
  rw [h, roundHalfEvenZ_intCast, ← h]
  ring

/-- Every quantized value has at most two fractional digits:
`100 * quantize2 x` is an integer. -/
theorem quantize2_int (x : ℚ) : 100 * quantize2 x = (roundHalfEvenZ (100 * x) : ℚ) := by
  unfold quantize2
  ring

/-! ### gst.py : GST calculation -/

/-- Result record of `calculate_gst` (dataclass `GSTCalculation`). -/
structure GSTCalculation where
  base_amount : ℚ
  gst_rate : ℚ
  cgst : ℚ
  sgst : ℚ
  igst : ℚ
  total_gst : ℚ
  total_amount : ℚ
  is_inter_state : Bool
deriving Repr, DecidableEq

/-- Steps 3.4-3.9 of `calculate_gst`: the arithmetic on validated inputs,
with the inter-state flag already determined by step 3.3. -/
def calcCore (amount gst_rate : ℚ) (is_inter_state : Bool) (include_gst : Bool) :
    GSTCalculation :=
  let base_amount0 := if include_gst then amount * 100 / (100 + gst_rate) else amount
  let base_amount := quantize2 base_amount0
  let total_gst := quantize2 (base_amount * gst_rate / 100)
  let cgst := if is_inter_state then 0 else quantize2 (total_gst / 2)
  let sgst := if is_inter_state then 0 else quantize2 (total_gst / 2)
  let igst := if is_inter_state then total_gst else 0
  let total_amount := quantize2 (base_amount + total_gst)
  ⟨base_amount, gst_rate, cgst, sgst, igst, total_gst, total_amount, is_inter_state⟩

/-- Model of `calculate_gst` from gst.py.  State codes appear post-`int(...)`-parse;
a `none` shipping code models Python's falsy `None`/empty string, in which
case the source defaults shipping to billing (intra-state). -/
def calculate_gst (amount : ℚ) (gst_rate : ℚ) (billing_state_code : ℤ)
    (shipping_state_code : Option ℤ) (include_gst : Bool) :
    Except String GSTCalculation :=
  if amount < 0 then .error "Amount cannot be negative"
  else if gst_rate < 0 ∨ 100 < gst_rate then .error "GST rate must be between 0 and 100"
  else if ¬(1 ≤ billing_state_code ∧ billing_state_code ≤ 38) then
    .error "Invalid billing state code format"
  else
    match shipping_state_code with
    | some shipping_code =>
      if ¬(1 ≤ shipping_code ∧ shipping_code ≤ 38) then
        .error "Invalid shipping state code format"
      else
        .ok (calcCore amount gst_rate (billing_state_code ≠ shipping_code) include_gst)
    | none => .ok (calcCore amount gst_rate false include_gst)

theorem calculate_gst_ok_shape {a r : ℚ} {b : ℤ} {sh : Option ℤ} {inc : Bool}
    {res : GSTCalculation} (h : calculate_gst a r b sh inc = .ok res) :
    ∃ inter : Bool, res = calcCore a r inter inc := by
  unfold calculate_gst at h
  repeat' split at h
  all_goals first
    | exact ⟨_, (Except.ok.inj h).symm⟩
    | simp at h

/-! ### currency.py -/

/-- Model of `validate_inr_amount` from currency.py.  The `min_amount` argument is
`Option`al exactly as in the source (`None` defaults to ₹1.00).  The
max-2-fractional-digits check (`amount.as_tuple().exponent < -2`) is modelled
on the value, assuming canonical `Decimal` representations. -/
def validate_inr_amount (amount : ℚ) (min_amount : Option ℚ) : Bool × Option String :=
  let m := min_amount.getD 1
  if amount ≤ 0 then (false, some "Amount must be positive")
  else if amount < m then (false, some "Amount is below minimum")
  else if ¬((100 * amount).den = 1) then
    (false, some "Amount cannot have more than 2 decimal places")
  else if 100000000 < amount then (false, some "Amount exceeds maximum")
  else (true, none)

/-- Model of `convert_to_paisa` from currency.py: validate, then `int(amount * 100)`
(truncation toward zero). -/
def convert_to_paisa (amount : ℚ) : Except String ℤ :=
  match validate_inr_amount amount none with
  | (true, _) => .ok (pyInt (amount * 100))
  | (false, e) => .error (e.getD "")

/-- Model of `convert_from_paisa` from currency.py. -/
def convert_from_paisa (paisa : ℤ) : Except String ℚ :=
  if paisa < 0 then .error "Paisa cannot be negative"
  else .ok (quantize2 ((paisa : ℚ) / 100))

/-! ### discount.py -/

/-- Flattened form of the nested result dict of `apply_discount_with_gst`
(keys `original`, `discount`, `final`, `savings`). -/
structure DiscountResult where
  original_base : ℚ
  original_gst : ℚ
  original_total : ℚ
  discount_type : String
  discount_value : ℚ
  discount_on_base : ℚ
  discount_on_gst : ℚ
  total_discount : ℚ
  final_base : ℚ
  final_cgst : ℚ
  final_sgst : ℚ
  final_igst : ℚ
  final_total_gst : ℚ
  final_total_amount : ℚ
  savings_amount : ℚ
  savings_percentage : ℚ
deriving Repr, DecidableEq

/-- Model of `apply_discount_with_gst` from discount.py. -/
def apply_discount_with_gst (original_amount discount_value : ℚ) (discount_type : String)
    (gst_rate : ℚ) (billing_state_code : ℤ) (shipping_state_code : Option ℤ) :
    Except String DiscountResult :=
  if ¬(validate_inr_amount original_amount none).1 then
    .error "Invalid original amount"
  else if ¬(validate_inr_amount discount_value (some 0)).1 ∧ discount_type = "fixed" then
    .error "Invalid discount value"
  else if ¬(discount_type = "fixed" ∨ discount_type = "percentage") then
    .error "Invalid discount type"
  else
    match calculate_gst original_amount gst_rate billing_state_code shipping_state_code true with
    | .error e => .error e
    | .ok original_gst =>
      if discount_type = "percentage" ∧ (discount_value < 0 ∨ 100 < discount_value) then
        .error "Discount percentage must be between 0 and 100"
      else
        let discount_on_base :=
          if discount_type = "percentage" then
            quantize2 (original_gst.base_amount * discount_value / 100)
          else
            quantize2 (discount_value * 100 / (100 + gst_rate))
        let new_base_amount :=
          if original_gst.base_amount - discount_on_base < 0 then 0
          else original_gst.base_amount - discount_on_base
        match calculate_gst new_base_amount gst_rate billing_state_code shipping_state_code false with
        | .error e => .error e
        | .ok new_gst =>
          let total_discount := original_amount - new_gst.total_amount
          .ok ⟨original_gst.base_amount, original_gst.total_gst, original_gst.total_amount,
               discount_type, discount_value, discount_on_base,
               original_gst.total_gst - new_gst.total_gst, total_discount,
               new_gst.base_amount, new_gst.cgst, new_gst.sgst, new_gst.igst,
               new_gst.total_gst, new_gst.total_amount,
               total_discount,
               if 0 < original_amount then quantize2 (total_discount / original_amount * 100)
               else 0⟩

/-- One bulk-discount tier `{"min_qty": ..., "discount_pct": ...}`. -/
structure Tier where
  min_qty : ℤ
  discount_pct : ℚ
deriving Repr, DecidableEq

/-- Insertion step of a stable descending sort on `min_qty`:
`sorted(discount_tiers, key=lambda x: x["min_qty"], reverse=True)`.  A tier is
placed before the first tier whose `min_qty` does not exceed its own, so tiers
with equal `min_qty` keep their original relative order, as Python's stable
sort does. -/
def insertTierDesc (t : Tier) : List Tier → List Tier
  | [] => [t]
  | u :: us => if u.min_qty ≤ t.min_qty then t :: u :: us else u :: insertTierDesc t us

/-- Stable descending sort of the tier list by `min_qty`. -/
def sortTiersDesc (l : List Tier) : List Tier := l.foldr insertTierDesc []

/-- Steps 3.3 of `calculate_bulk_discount_with_gst`: the loop over the
descending-sorted tiers taking the first tier with `quantity >= min_qty`. -/
def pickTier (quantity : ℤ) (discount_tiers : List Tier) : Option Tier :=
  (sortTiersDesc discount_tiers).find? (fun t => t.min_qty ≤ quantity)

/-- Result dict of `calculate_bulk_discount_with_gst`. -/
structure BulkResult where
  item_price : ℚ
  quantity : ℤ
  original_total : ℚ
  applied_tier : Option Tier
  discount_percentage : ℚ
  discount_details : Option DiscountResult
  final_total : ℚ
  final_per_item_price : ℚ
deriving Repr, DecidableEq

/-- Model of `calculate_bulk_discount_with_gst` from discount.py.  The loop over the
descending-sorted tiers taking the first tier with `quantity >= min_qty` is
`List.find?` over the sorted list. -/
def calculate_bulk_discount_with_gst (item_price : ℚ) (quantity : ℤ) (discount_tiers : List Tier)
    (gst_rate : ℚ) (billing_state_code : ℤ) (shipping_state_code : Option ℤ) :
    Except String BulkResult :=
  if ¬(validate_inr_amount item_price none).1 then .error "Invalid item price"
  else if quantity ≤ 0 then .error "Quantity must be positive"
  else
    let original_total := item_price * (quantity : ℚ)
    let applied_tier := pickTier quantity discount_tiers
    let applicable_discount := match applied_tier with
      | some t => t.discount_pct
      | none => 0
    if 0 < applicable_discount then
      match apply_discount_with_gst original_total applicable_discount "percentage"
          gst_rate billing_state_code shipping_state_code with
      | .error e => .error e
      | .ok dr =>
        .ok ⟨item_price, quantity, original_total, applied_tier, applicable_discount,
             some dr, dr.final_total_amount,
             quantize2 (dr.final_total_amount / (quantity : ℚ))⟩
    else
      .ok ⟨item_price, quantity, original_total, applied_tier, applicable_discount,
           none, original_total, item_price⟩

/-! ### Helper lemmas about the quantized arithmetic -/

theorem quantize2_add_quantize2 (x y : ℚ) :
    quantize2 (quantize2 x + quantize2 y) = quantize2 x + quantize2 y := by
  apply quantize2_eq_self (roundHalfEvenZ (100 * x) + roundHalfEvenZ (100 * y))
  rw [mul_add, quantize2_int, quantize2_int]
  push_cast
  ring

/-- Splitting a 2-decimal total in half and re-quantizing each half loses at
most one paisa: `|cgst + sgst - total_gst| ≤ 0.01`. -/
theorem quantize2_half_split_bound (x : ℚ) :
    |quantize2 (quantize2 x / 2) + quantize2 (quantize2 x / 2) - quantize2 x| ≤ 1/100 := by
  have ht : quantize2 x = ((roundHalfEvenZ (100 * x) : ℤ) : ℚ) / 100 := rfl
  set k : ℤ := roundHalfEvenZ (100 * x) with hk
  have harg : (100 : ℚ) * (((k : ℤ) : ℚ) / 100 / 2) = (k : ℚ) / 2 := by ring
  have h2 : quantize2 (quantize2 x / 2) = ((roundHalfEvenZ ((k : ℚ) / 2) : ℤ) : ℚ) / 100 := by
    rw [ht]
    unfold quantize2
    rw [harg]
  have habs := roundHalfEvenZ_abs_le ((k : ℚ) / 2)
  rw [h2, ht]
  have heq : ((roundHalfEvenZ ((k : ℚ) / 2) : ℤ) : ℚ) / 100 +
      ((roundHalfEvenZ ((k : ℚ) / 2) : ℤ) : ℚ) / 100 - (k : ℚ) / 100 =
      (((roundHalfEvenZ ((k : ℚ) / 2) : ℤ) : ℚ) - (k : ℚ) / 2) * (2 / 100) := by ring
  rw [heq, abs_mul]
  have h100 : |(2 : ℚ) / 100| = 2 / 100 := by norm_num
  rw [h100]
  nlinarith [abs_nonneg (((roundHalfEvenZ ((k : ℚ) / 2) : ℤ) : ℚ) - (k : ℚ) / 2)]

theorem calcCore_total_amount (a r : ℚ) (inter inc : Bool) :
    (calcCore a r inter inc).total_amount =
      (calcCore a r inter inc).base_amount + (calcCore a r inter inc).total_gst := by
  show quantize2 (quantize2 _ + quantize2 _) = _
  rw [quantize2_add_quantize2]
  rfl

/-! ### C1 -/

/-- C1: for every input accepted by `calculate_gst`, the returned breakdown
satisfies: if inter-state then `cgst = sgst = 0` and `igst = total_gst`;
otherwise `igst = 0`, `cgst = sgst`, and `cgst + sgst` differs from
`total_gst` by at most `0.01`; and in both cases
`total_amount = base_amount + total_gst`. -/
theorem C1_gst_breakdown_invariants (a r : ℚ) (b : ℤ) (sh : Option ℤ) (inc : Bool)
    (res : GSTCalculation) (h : calculate_gst a r b sh inc = .ok res) :
    (res.is_inter_state = true → res.cgst = 0 ∧ res.sgst = 0 ∧ res.igst = res.total_gst) ∧
    (res.is_inter_state = false → res.igst = 0 ∧ res.cgst = res.sgst ∧
      |res.cgst + res.sgst - res.total_gst| ≤ 1/100) ∧
    res.total_amount = res.base_amount + res.total_gst := by
  obtain ⟨inter, rfl⟩ := calculate_gst_ok_shape h
  refine ⟨?_, ?_, calcCore_total_amount a r inter inc⟩
  · intro hinter
    cases inter with
    | false => simp [calcCore] at hinter
    | true => exact ⟨rfl, rfl, rfl⟩
  · intro hintra
    cases inter with
    | true => simp [calcCore] at hintra
    | false =>
      refine ⟨rfl, rfl, ?_⟩
      exact quantize2_half_split_bound _

/-- Witness for C1 at the spec's intra-state example
`calculate(1000, 18, "27", "27", includesTax=false)`. -/
theorem C1_gst_breakdown_invariants_witness :
    ((GSTCalculation.mk 1000 18 90 90 0 180 1180 false).is_inter_state = true →
      (GSTCalculation.mk 1000 18 90 90 0 180 1180 false).cgst = 0 ∧
      (GSTCalculation.mk 1000 18 90 90 0 180 1180 false).sgst = 0 ∧
      (GSTCalculation.mk 1000 18 90 90 0 180 1180 false).igst =
        (GSTCalculation.mk 1000 18 90 90 0 180 1180 false).total_gst) ∧
    ((GSTCalculation.mk 1000 18 90 90 0 180 1180 false).is_inter_state = false →
      (GSTCalculation.mk 1000 18 90 90 0 180 1180 false).igst = 0 ∧
      (GSTCalculation.mk 1000 18 90 90 0 180 1180 false).cgst =
        (GSTCalculation.mk 1000 18 90 90 0 180 1180 false).sgst ∧
      |(GSTCalculation.mk 1000 18 90 90 0 180 1180 false).cgst +
        (GSTCalculation.mk 1000 18 90 90 0 180 1180 false).sgst -
        (GSTCalculation.mk 1000 18 90 90 0 180 1180 false).total_gst| ≤ 1/100) ∧
    (GSTCalculation.mk 1000 18 90 90 0 180 1180 false).total_amount =
      (GSTCalculation.mk 1000 18 90 90 0 180 1180 false).base_amount +
        (GSTCalculation.mk 1000 18 90 90 0 180 1180 false).total_gst :=
  C1_gst_breakdown_invariants 1000 18 27 (some 27) false
    (GSTCalculation.mk 1000 18 90 90 0 180 1180 false)
    (by norm_num [calculate_gst, calcCore, quantize2, roundHalfEvenZ])

/-! ### C2 -/

/-- C2: the spec's worked discount example: a 10% discount on a tax-inclusive
₹1180.00 at 18% GST, billing state 27, no shipping state, yields final base
900.00, total GST 162.00, total 1062.00 and savings percentage 10.00. -/
theorem C2_discount_example :
    (apply_discount_with_gst 1180 10 "percentage" 18 27 none).map
      (fun r => (r.final_base, r.final_total_gst, r.final_total_amount,
                 r.savings_percentage)) =
      .ok (900, 162, 1062, 10) := by
  norm_num [apply_discount_with_gst, calculate_gst, calcCore, quantize2, roundHalfEvenZ,
    validate_inr_amount, Except.map]

/-! ### C3 -/

/-- C3 counterexample: `calculate_gst(0.50, 5, "27")` has an exact GST product
of `0.50 * 5 / 100 = 0.025`, exactly halfway between `0.02` and `0.03`.  The
claim says the quantization rounds halves away from zero, i.e. the result
farther from zero (`0.03`); the code's default-context quantization rounds
half to even and returns `0.02`. -/
theorem C3_half_away_counterexample :
    (calculate_gst (1/2) 5 27 none false).map (fun r => r.total_gst) = .ok (2/100) ∧
    (100 : ℚ) * ((1/2) * 5 / 100) = (2 : ℚ) + 1/2 ∧
    (2/100 : ℚ) ≠ 3/100 := by
  refine ⟨?_, by norm_num, by norm_num⟩
  norm_num [calculate_gst, calcCore, quantize2, roundHalfEvenZ, Except.map]

/-- C3 amended: the 2-decimal quantization used by `calculate_gst` rounds
halves to the even paisa (ROUND_HALF_EVEN), not away from zero: whenever the
exact value of `base_amount * gst_rate / 100` lies exactly halfway between
adjacent paisa values `k/100` and `(k+1)/100`, the returned `total_gst` is
the candidate with even paisa count. -/
theorem C3_half_even_rounding (a r : ℚ) (b : ℤ) (sh : Option ℤ) (inc : Bool)
    (res : GSTCalculation) (k : ℤ)
    (h : calculate_gst a r b sh inc = .ok res)
    (hhalf : 100 * (res.base_amount * r / 100) = (k : ℚ) + 1/2) :
    res.total_gst = (if k % 2 = 0 then (k : ℚ) else (k : ℚ) + 1) / 100 := by
  obtain ⟨inter, rfl⟩ := calculate_gst_ok_shape h
  show quantize2 ((calcCore a r inter inc).base_amount * r / 100) = _
  unfold quantize2
  rw [hhalf, roundHalfEvenZ_half]
  split <;> norm_num

/-- Witness for C3's amended claim at `calculate_gst(0.50, 5, "27")`: the
exact product `0.025` is the tie `(2 + 1/2)/100` and the result is the even
candidate `0.02`. -/
theorem C3_half_even_rounding_witness :
    (GSTCalculation.mk (1/2) 5 (1/100) (1/100) 0 (2/100) (52/100) false).total_gst =
      (if (2 : ℤ) % 2 = 0 then ((2 : ℤ) : ℚ) else ((2 : ℤ) : ℚ) + 1) / 100 :=
  C3_half_even_rounding (1/2) 5 27 none false
    (GSTCalculation.mk (1/2) 5 (1/100) (1/100) 0 (2/100) (52/100) false) 2
    (by norm_num [calculate_gst, calcCore, quantize2, roundHalfEvenZ])
    (by norm_num)

/-! ### C4 -/

/-- C4: round-trip — for every amount with at most 2 fractional digits in the
validated range `[1.00, 100000000.00]`,
`convert_from_paisa (convert_to_paisa x) = x`. -/
theorem C4_paisa_round_trip (x : ℚ) (n : ℤ) (hx : x = (n : ℚ) / 100)
    (h1 : 1 ≤ x) (h2 : x ≤ 100000000) :
    (convert_to_paisa x).bind convert_from_paisa = .ok x := by
  have hn : (100 : ℚ) * x = (n : ℚ) := by rw [hx]; ring
  have hn1 : 100 ≤ n := by
    have : (100 : ℚ) ≤ (n : ℚ) := by rw [← hn]; nlinarith
    exact_mod_cast this
  have hval : validate_inr_amount x none = (true, none) := by
    unfold validate_inr_amount
    rw [if_neg (by linarith), if_neg (by simp; linarith), if_neg, if_neg (by linarith)]
    rw [hn]
    simp [Rat.den_intCast]
  have htrunc : pyInt (x * 100) = n := by
    unfold pyInt
    rw [show x * 100 = ((n : ℤ) : ℚ) by rw [← hn]; ring]
    rw [if_neg (by linarith), Int.floor_intCast]
  unfold convert_to_paisa
  rw [hval]
  show convert_from_paisa (pyInt (x * 100)) = .ok x
  rw [htrunc]
  unfold convert_from_paisa
  rw [if_neg (by omega)]
  rw [quantize2_eq_self n (by field_simp), hx]

/-- Witness for C4 at `x = 123.45`. -/
theorem C4_paisa_round_trip_witness :
    (convert_to_paisa (12345/100)).bind convert_from_paisa = .ok (12345/100) :=
  C4_paisa_round_trip (12345/100) 12345 (by norm_num) (by norm_num) (by norm_num)

/-! ### C10 -/

/-- C10: a 0% percentage discount is not an identity on the tax-inclusive
total.  For `original_amount = 100.00` at 18% GST (billing "27") the base is
extracted as `quantize2(100*100/118) = 84.75`, the tax re-derived from the
rounded base is `quantize2(84.75*18/100) = 15.26`, so the final total is
`100.01 ≠ 100.00` and `total_discount = savings.amount = -0.01 < 0`. -/
theorem C10_zero_discount_not_identity :
    (apply_discount_with_gst 100 0 "percentage" 18 27 none).map
      (fun r => (r.final_total_amount, r.total_discount, r.savings_amount)) =
      .ok (10001/100, -(1/100), -(1/100)) ∧
    (10001/100 : ℚ) ≠ 100 ∧ -(1/100 : ℚ) < 0 := by
  refine ⟨?_, by norm_num, by norm_num⟩
  norm_num [apply_discount_with_gst, calculate_gst, calcCore, quantize2, roundHalfEvenZ,
    validate_inr_amount, Except.map, show ("percentage" : String) ≠ "fixed" from by decide]

/-! ### C6 : bulk tier selection -/

theorem mem_insertTierDesc {t u : Tier} {l : List Tier} :
    u ∈ insertTierDesc t l ↔ u = t ∨ u ∈ l := by
  induction l with
  | nil => simp [insertTierDesc]
  | cons v vs ih =>
    unfold insertTierDesc
    split
    · simp only [List.mem_cons]
    · simp only [List.mem_cons, ih]
      tauto

theorem sortTiersDesc_mem {u : Tier} {l : List Tier} : u ∈ sortTiersDesc l ↔ u ∈ l := by
  induction l with
  | nil => simp [sortTiersDesc]
  | cons v vs ih =>
    show u ∈ insertTierDesc v (sortTiersDesc vs) ↔ _
    rw [mem_insertTierDesc, ih, List.mem_cons]

theorem insertTierDesc_pairwise {t : Tier} {l : List Tier}
    (h : l.Pairwise (fun a b => b.min_qty ≤ a.min_qty)) :
    (insertTierDesc t l).Pairwise (fun a b => b.min_qty ≤ a.min_qty) := by
  induction l with
  | nil => simp [insertTierDesc]
  | cons v vs ih =>
    rw [List.pairwise_cons] at h
    obtain ⟨hv, hvs⟩ := h
    unfold insertTierDesc
    split
    · rename_i hle
      rw [List.pairwise_cons]
      refine ⟨?_, List.pairwise_cons.mpr ⟨hv, hvs⟩⟩
      intro x hx
      rcases List.mem_cons.mp hx with rfl | hx
      · exact hle
      · exact le_trans (hv x hx) hle
    · rename_i hgt
      push_neg at hgt
      rw [List.pairwise_cons]
      refine ⟨?_, ih hvs⟩
      intro x hx
      rcases mem_insertTierDesc.mp hx with rfl | hx
      · exact le_of_lt hgt
      · exact hv x hx

theorem sortTiersDesc_pairwise (l : List Tier) :
    (sortTiersDesc l).Pairwise (fun a b => b.min_qty ≤ a.min_qty) := by
  induction l with
  | nil => simp [sortTiersDesc]
  | cons v vs ih => exact insertTierDesc_pairwise ih

/-- In a descending-sorted tier list, the first tier whose `min_qty` does not
exceed `qty` has the largest `min_qty` among all qualifying tiers. -/
theorem find?_qualifying_max {qty : ℤ} {l : List Tier} {t : Tier}
    (hsorted : l.Pairwise (fun a b => b.min_qty ≤ a.min_qty))
    (hfind : l.find? (fun t => t.min_qty ≤ qty) = some t) :
    ∀ u ∈ l, u.min_qty ≤ qty → u.min_qty ≤ t.min_qty := by
  induction l with
  | nil => simp at hfind
  | cons v vs ih =>
    rw [List.pairwise_cons] at hsorted
    obtain ⟨hv, hvs⟩ := hsorted
    by_cases hp : v.min_qty ≤ qty
    · rw [List.find?_cons_of_pos _ (by simpa using hp)] at hfind
      obtain rfl : v = t := by simpa using hfind
      intro u hu _
      rcases List.mem_cons.mp hu with rfl | hu
      · exact le_refl _
      · exact hv u hu
    · rw [List.find?_cons_of_neg _ (by simpa using hp)] at hfind
      intro u hu hq
      rcases List.mem_cons.mp hu with rfl | hu
      · exact absurd hq hp
      · exact ih hvs hfind u hu hq

/-- C6: for every accepted input, `calculate_bulk_discount_with_gst` applies
the discount percentage of a tier whose `min_qty` is the largest among all
tiers with `min_qty ≤ quantity`; if no tier qualifies, no discount is applied:
`final_total = item_price * quantity` and the per-item price is `item_price`. -/
theorem C6_bulk_tier_selection (price : ℚ) (qty : ℤ) (tiers : List Tier) (rate : ℚ)
    (b : ℤ) (sh : Option ℤ) (res : BulkResult)
    (h : calculate_bulk_discount_with_gst price qty tiers rate b sh = .ok res) :
    ((∃ t ∈ tiers, t.min_qty ≤ qty) →
      ∃ t ∈ tiers, t.min_qty ≤ qty ∧ res.discount_percentage = t.discount_pct ∧
        ∀ u ∈ tiers, u.min_qty ≤ qty → u.min_qty ≤ t.min_qty) ∧
    ((∀ t ∈ tiers, ¬ t.min_qty ≤ qty) →
      res.final_total = price * (qty : ℚ) ∧ res.final_per_item_price = price) := by
  unfold calculate_bulk_discount_with_gst at h
  split at h
  · simp at h
  split at h
  · simp at h
  cases hpick : pickTier qty tiers with
  | none =>
    rw [hpick] at h
    have hnoqual : ∀ t ∈ tiers, ¬ t.min_qty ≤ qty := by
      intro t ht hq
      have hmem : t ∈ sortTiersDesc tiers := sortTiersDesc_mem.mpr ht
      have := List.find?_eq_none.mp hpick t hmem
      simp at this
      omega
    simp only [lt_self_iff_false, if_false] at h
    obtain rfl : _ = res := Except.ok.inj h
    refine ⟨?_, fun _ => ⟨rfl, rfl⟩⟩
    intro ⟨t, ht, hq⟩
    exact absurd hq (hnoqual t ht)
  | some t =>
    rw [hpick] at h
    simp only [] at h
    have htmem : t ∈ tiers :=
      sortTiersDesc_mem.mp (List.mem_of_find?_eq_some hpick)
    have htq : t.min_qty ≤ qty := by
      have := List.find?_some hpick
      simpa using this
    have hmax : ∀ u ∈ tiers, u.min_qty ≤ qty → u.min_qty ≤ t.min_qty := by
      intro u hu hq
      exact find?_qualifying_max (sortTiersDesc_pairwise tiers) hpick u
        (sortTiersDesc_mem.mpr hu) hq
    have hpct : res.discount_percentage = t.discount_pct := by
      split at h
      · cases happ : apply_discount_with_gst (price * (qty : ℚ)) t.discount_pct
            "percentage" rate b sh with
        | error e => rw [happ] at h; simp at h
        | ok dr =>
          rw [happ] at h
          obtain rfl : _ = res := Except.ok.inj h
          rfl
      · obtain rfl : _ = res := Except.ok.inj h
        rfl
    exact ⟨fun _ => ⟨t, htmem, htq, hpct, hmax⟩,
      fun hno => absurd htq (hno t htmem)⟩

/-- Witness for C6 at the spec's example: tiers `[{5,10},{10,20}]` with
`quantity = 25` (and `item_price = 118`, 18% GST, billing "27") select the
`min_qty = 10` tier with its 20% discount. -/
theorem C6_bulk_tier_selection_witness :
    ∃ t ∈ [Tier.mk 5 10, Tier.mk 10 20], t.min_qty ≤ 25 ∧
      (BulkResult.mk 118 25 2950 (some (Tier.mk 10 20)) 20
        (some (DiscountResult.mk 2500 450 2950 "percentage" 20 500 90 590
          2000 180 180 0 360 2360 590 20)) 2360 (472/5)).discount_percentage =
        t.discount_pct ∧
      ∀ u ∈ [Tier.mk 5 10, Tier.mk 10 20], u.min_qty ≤ 25 → u.min_qty ≤ t.min_qty :=
  (C6_bulk_tier_selection 118 25 [Tier.mk 5 10, Tier.mk 10 20] 18 27 none
    (BulkResult.mk 118 25 2950 (some (Tier.mk 10 20)) 20
      (some (DiscountResult.mk 2500 450 2950 "percentage" 20 500 90 590
        2000 180 180 0 360 2360 590 20)) 2360 (472/5))
    (by norm_num [calculate_bulk_discount_with_gst, pickTier, sortTiersDesc,
      insertTierDesc, List.find?, apply_discount_with_gst, calculate_gst, calcCore,
      quantize2, roundHalfEvenZ, validate_inr_amount,
      show ("percentage" : String) ≠ "fixed" from by decide])).1
    ⟨Tier.mk 10 20, by norm_num, by norm_num⟩

/-! ### String model (ASCII fragments of str.strip / str.upper) -/

/-- The characters stripped by Python `str.strip()` (ASCII whitespace; the
data handled here is ASCII). -/
def isPySpace (c : Char) : Bool :=
  c == ' ' || c == '\t' || c == '\n' || c == '\x0b' || c == '\x0c' || c == '\r'

/-- Python `str.strip()`: drop leading and trailing whitespace. -/
def pyStrip (l : List Char) : List Char :=
  ((l.dropWhile isPySpace).reverse.dropWhile isPySpace).reverse

/-- Python `str.upper()` on one ASCII character. -/
def pyUpperChar (c : Char) : Char :=
  if 97 ≤ c.toNat ∧ c.toNat ≤ 122 then Char.ofNat (c.toNat - 32) else c

/-- Python `str.upper()` (ASCII model). -/
def pyUpper (l : List Char) : List Char := l.map pyUpperChar

/-! ### gst.py : GSTIN validation -/

/-- The regex class `[0-9]`. -/
def isDigit09 (c : Char) : Bool := 48 ≤ c.toNat && c.toNat ≤ 57

/-- The regex class `[A-Z]`. -/
def isUpperAZ (c : Char) : Bool := 65 ≤ c.toNat && c.toNat ≤ 90

/-- The regex class `[1-9A-Z]` (entity-number position). -/
def isEntityChar (c : Char) : Bool := (49 ≤ c.toNat && c.toNat ≤ 57) || isUpperAZ c

/-- The regex class `[0-9A-Z]` (checksum position). -/
def isAlnumUpper (c : Char) : Bool := isDigit09 c || isUpperAZ c

/-- Model of `GSTIN_PATTERN.match`: the anchored regex
`^[0-9]{2}[A-Z]{5}[0-9]{4}[A-Z][1-9A-Z]Z[0-9A-Z]$` on a 15-character string. -/
def gstin_pattern_match (g : List Char) : Bool :=
  match g with
  | [d1, d2, p1, p2, p3, p4, p5, n1, n2, n3, n4, pl, e, z, cs] =>
    isDigit09 d1 && isDigit09 d2 && isUpperAZ p1 && isUpperAZ p2 && isUpperAZ p3 &&
    isUpperAZ p4 && isUpperAZ p5 && isDigit09 n1 && isDigit09 n2 && isDigit09 n3 &&
    isDigit09 n4 && isUpperAZ pl && isEntityChar e && (z == 'Z') && isAlnumUpper cs
  | _ => false

/-- The checksum alphabet `"0123456789ABCDEFGHIJKLMNOPQRSTUVWXYZ"`. -/
def charMap : List Char := "0123456789ABCDEFGHIJKLMNOPQRSTUVWXYZ".data

/-- Python `list.index`, returning the list's length when the element is
missing (where Python would raise; the checksum only looks up characters that
the regex has already confined to the alphabet). -/
def listIndexOf (c : Char) : List Char → ℕ
  | [] => 0
  | d :: ds => if d = c then 0 else 1 + listIndexOf c ds

/-- Model of `char_map.index(char)`. -/
def charMapIdx (c : Char) : ℕ := listIndexOf c charMap

/-- Step 3 of `_validate_gstin_checksum`: the running checksum value over the
first 14 characters, doubling values at even 0-indexed positions and adding
quotient and remainder by 36. -/
def gstin_checksum_sum : ℕ → List Char → ℕ
  | _, [] => 0
  | i, c :: cs =>
    (fun v2 => v2 / 36 + v2 % 36) (if i % 2 = 0 then 2 * charMapIdx c else charMapIdx c) +
      gstin_checksum_sum (i + 1) cs

/-- Model of `_validate_gstin_checksum` from gst.py: the 15th character must equal
`char_map[(36 - sum % 36) % 36]`. -/
def validate_gstin_checksum (g : List Char) : Bool :=
  g.getD 14 ' ' == charMap.getD ((36 - gstin_checksum_sum 0 (g.take 14) % 36) % 36) ' '

/-- Step 2.5 of `validate_gstin`: `int(gstin[:2])` (both characters are
digits once the regex has matched). -/
def gstin_state_code (g : List Char) : ℕ :=
  ((g.getD 0 '0').toNat - 48) * 10 + ((g.getD 1 '0').toNat - 48)

/-- Model of `validate_gstin` from gst.py: `(is_valid, error_message)`. -/
def validate_gstin (gstin : List Char) : Bool × Option String :=
  if gstin = [] then (false, some "GSTIN is required")
  else
    let g := pyUpper (pyStrip gstin)
    if g.length ≠ 15 then (false, some "GSTIN must be 15 characters long")
    else if ¬ gstin_pattern_match g then (false, some "GSTIN format is invalid")
    else if ¬(1 ≤ gstin_state_code g ∧ gstin_state_code g ≤ 38) then
      (false, some "Invalid state code")
    else if ¬ validate_gstin_checksum g then
      (false, some "GSTIN checksum validation failed")
    else (true, none)

/-! ### C5 -/

/-- Modelled from the spec: the official GSTIN check-digit algorithm doubles
the mapped value at every second character starting from the second one
(odd 0-indexed positions).  The source instead doubles at even 0-indexed
positions (`if i % 2 == 0: value *= 2`); this definition exists only to
exhibit that `'V'`, the 15th character of the repository's own test GSTIN,
is the official check character while the source computes `'T'`. -/
def gstin_checksum_sum_official : ℕ → List Char → ℕ
  | _, [] => 0
  | i, c :: cs =>
    (fun v2 => v2 / 36 + v2 % 36) (if i % 2 = 1 then 2 * charMapIdx c else charMapIdx c) +
      gstin_checksum_sum_official (i + 1) cs

/-- C5: the code rejects `"27AAPFU0939F1ZV"` with a checksum failure, although
the repository's own test (`test_validate_gstin_valid`) asserts that this
GSTIN is valid and the claim says it is accepted.  The source's
`_validate_gstin_checksum` doubles values at even 0-indexed positions and so
expects `'T'` as the 15th character; the official algorithm (odd positions
doubled) expects exactly the `'V'` the test GSTIN carries. -/
theorem C5_gstin_checksum_code_bug :
    validate_gstin "27AAPFU0939F1ZV".data =
      (false, some "GSTIN checksum validation failed") ∧
    charMap.getD ((36 - gstin_checksum_sum 0 "27AAPFU0939F1Z".data % 36) % 36) ' ' = 'T' ∧
    charMap.getD
        ((36 - gstin_checksum_sum_official 0 "27AAPFU0939F1Z".data % 36) % 36) ' ' = 'V' ∧
    gstin_pattern_match "27AAPFU0939F1ZV".data = true := by
  decide

/-! ### Python str.split model -/

/-- Python `str.split(sep)` for a single-character separator. -/
def pySplit (sep : Char) : List Char → List (List Char)
  | [] => [[]]
  | c :: cs =>
    if c = sep then [] :: pySplit sep cs
    else
      match pySplit sep cs with
      | [] => [[c]]
      | p :: ps => (c :: p) :: ps

theorem pySplit_ne_nil (sep : Char) (l : List Char) : pySplit sep l ≠ [] := by
  induction l with
  | nil => simp [pySplit]
  | cons c cs ih =>
    by_cases hc : c = sep
    · simp [pySplit, hc]
    · cases h : pySplit sep cs with
      | nil => simp [pySplit, hc, h]
      | cons p ps => simp [pySplit, hc, h]

theorem pySplit_eq_singleton (sep : Char) (v h : List Char) :
    pySplit sep v = [h] ↔ v = h ∧ sep ∉ h := by
  induction v generalizing h with
  | nil =>
    constructor
    · intro hEq
      have hh : ([] : List Char) = h := by simpa [pySplit] using hEq
      exact ⟨hh, by simp [← hh]⟩
    · rintro ⟨hEq, -⟩
      simp [pySplit, ← hEq]
  | cons c cs ih =>
    by_cases hc : c = sep
    · subst hc
      simp only [pySplit, if_pos rfl]
      constructor
      · intro hEq
        obtain ⟨h1, h2⟩ := List.cons.inj hEq
        exact absurd h2 (pySplit_ne_nil c cs)
      · rintro ⟨rfl, hmem⟩
        simp at hmem
    · cases hsp : pySplit sep cs with
      | nil => exact absurd hsp (pySplit_ne_nil sep cs)
      | cons p ps =>
        simp only [pySplit, if_neg hc, hsp]
        constructor
        · intro hEq
          obtain ⟨hh, hps⟩ := List.cons.inj hEq
          subst hps
          obtain ⟨rfl, hsep⟩ := (ih p).mp hsp
          refine ⟨hh ▸ rfl, ?_⟩
          rw [← hh]
          intro hm
          rcases List.mem_cons.mp hm with rfl | hm
          · exact hc rfl
          · exact hsep hm
        · rintro ⟨rfl, hmem⟩
          have hh : pySplit sep cs = [cs] :=
            (ih cs).mpr ⟨rfl, fun hm => hmem (List.mem_cons_of_mem _ hm)⟩
          rw [hsp] at hh
          obtain ⟨rfl, rfl⟩ := List.cons.inj hh
          rfl

theorem pySplit_eq_pair (sep : Char) (v u h : List Char) :
    pySplit sep v = [u, h] ↔ v = u ++ sep :: h ∧ sep ∉ u ∧ sep ∉ h := by
  induction v generalizing u with
  | nil =>
    constructor
    · intro hEq
      simp [pySplit] at hEq
    · rintro ⟨hEq, -, -⟩
      exact absurd hEq.symm (by simp)
  | cons c cs ih =>
    by_cases hc : c = sep
    · subst hc
      simp only [pySplit, if_pos rfl]
      constructor
      · intro hEq
        obtain ⟨hu, hrest⟩ := List.cons.inj hEq
        obtain ⟨rfl, hmem⟩ := (pySplit_eq_singleton c cs h).mp hrest
        exact ⟨by simp [← hu], by simp [← hu], hmem⟩
      · rintro ⟨hEq, hu, hh⟩
        cases u with
        | nil =>
          have hcs : cs = h := by simpa using hEq
          subst hcs
          have hsing := (pySplit_eq_singleton c cs cs).mpr ⟨rfl, hh⟩
          simp [hsing]
        | cons a as =>
          obtain ⟨rfl, -⟩ := List.cons.inj hEq
          exact absurd (List.mem_cons_self _ _) hu
    · cases hsp : pySplit sep cs with
      | nil => exact absurd hsp (pySplit_ne_nil sep cs)
      | cons p ps =>
        simp only [pySplit, if_neg hc, hsp]
        constructor
        · intro hEq
          obtain ⟨hcp, hps⟩ := List.cons.inj hEq
          subst hps
          obtain ⟨hcs, hpu, hhh⟩ := (ih p).mp hsp
          refine ⟨?_, ?_, hhh⟩
          · rw [← hcp, hcs]
            rfl
          · rw [← hcp]
            intro hm
            rcases List.mem_cons.mp hm with rfl | hm
            · exact hc rfl
            · exact hpu hm
        · rintro ⟨hEq, hu, hh⟩
          cases u with
          | nil =>
            obtain ⟨rfl, -⟩ := List.cons.inj hEq
            exact absurd rfl hc
          | cons a as =>
            obtain ⟨rfl, hcs⟩ := List.cons.inj hEq
            have hau : sep ∉ as := fun hm => hu (List.mem_cons_of_mem _ hm)
            have hpair : pySplit sep cs = [as, h] := (ih as).mpr ⟨hcs, hau, hh⟩
            rw [hsp] at hpair
            obtain ⟨rfl, rfl⟩ := List.cons.inj hpair
            rfl

/-! ### validators.py and upi.py : VPA validation -/

/-- The regex class `[a-zA-Z0-9._\x2d]` (username part of `_UPI_VPA_RE`). -/
def isVpaUserChar (c : Char) : Bool :=
  (65 ≤ c.toNat && c.toNat ≤ 90) || (97 ≤ c.toNat && c.toNat ≤ 122) ||
  (48 ≤ c.toNat && c.toNat ≤ 57) || c == '.' || c == '_' || c == '-'

/-- The regex class `[a-zA-Z]` (handle part of `_UPI_VPA_RE`). -/
def isAsciiLetter (c : Char) : Bool :=
  (65 ≤ c.toNat && c.toNat ≤ 90) || (97 ≤ c.toNat && c.toNat ≤ 122)

/-- The body of `_UPI_VPA_RE` matched against the whole string:
`[a-zA-Z0-9._\x2d]{2,256}@[a-zA-Z]{3,64}`.  Neither character class contains
`'@'`, so the body matches exactly the strings with a unique `'@'` whose two
parts satisfy the classes and length bounds; that unique decomposition is
`pySplit '@'`. -/
def upi_vpa_regex_core (s : List Char) : Bool :=
  match pySplit '@' s with
  | [u, h] =>
    u.all isVpaUserChar && decide (2 ≤ u.length) && decide (u.length ≤ 256) &&
    h.all isAsciiLetter && decide (3 ≤ h.length) && decide (h.length ≤ 64)
  | _ => false

/-- Model of `_UPI_VPA_RE.match`: the anchored regex
`^[a-zA-Z0-9._\x2d]{2,256}@[a-zA-Z]{3,64}$` from saleor/india/validators.py.
In Python `re` (without MULTILINE), `'$'` matches at the end of the string
and also just before a single newline at the end of the string, so the regex
accepts both the body language and the same strings with one trailing
`'\n'` appended. -/
def upi_vpa_regex_match (s : List Char) : Bool :=
  upi_vpa_regex_core s ||
    (s.getLast? == some '\n' && upi_vpa_regex_core s.dropLast)

namespace india_validators

/-- Model of `validate_upi_vpa` from saleor/india/validators.py: raises `ValueError`
unless `_UPI_VPA_RE` matches (`vpa or ""` turns a falsy value into the empty
string, which the regex rejects anyway). -/
def validate_upi_vpa (vpa : List Char) : Except String Unit :=
  if upi_vpa_regex_match vpa then .ok () else .error "Invalid UPI VPA format"

end india_validators

namespace razorpay_upi

/-- Model of `validate_upi_vpa` from saleor/payment/gateways/razorpay/upi.py:
`(is_valid, error_message)`. -/
def validate_upi_vpa (vpa : List Char) : Bool × Option String :=
  if vpa = [] then (false, some "UPI VPA is required")
  else
    let v := pyStrip vpa
    if ¬ v.contains '@' then (false, some "UPI VPA must contain @ symbol")
    else
      match pySplit '@' v with
      | [username, bank_code] =>
        if username.length < 3 then
          (false, some "UPI VPA username must be at least 3 characters")
        else if bank_code.length < 2 then
          (false, some "UPI VPA bank code is invalid")
        else (true, none)
      | _ => (false, some "UPI VPA format is invalid (must be username@bank)")

end razorpay_upi

/-! ### razorpay_mock.py : mock UPI gateway -/

/-- Model of `prices.Money`: an amount with a currency code. -/
structure Money where
  amount : ℚ
  currency : String
deriving Repr, DecidableEq

/-- Dataclass `RazorpayOrder`. -/
structure RazorpayOrder where
  id : String
  amount : Money
  currency : String
  receipt : String
  status : String
deriving Repr, DecidableEq

/-- Dataclass `RazorpayPayment` (the free-form `raw` payload is omitted). -/
structure RazorpayPayment where
  id : String
  order_id : String
  amount : Money
  currency : String
  vpa : String
  status : String
  error_code : Option String
  error_description : Option String
deriving Repr, DecidableEq

/-- The mock client's instance state: its `orders` and `payments` dicts,
as association lists keyed by id. -/
structure MockState where
  orders : List (String × RazorpayOrder)
  payments : List (String × RazorpayPayment)
deriving Repr, DecidableEq

/-- Model of `self.orders[order_id] = RazorpayOrder(..., status="paid")`: replace the
stored order with the same fields except `status`. -/
def setOrderPaid : List (String × RazorpayOrder) → String → List (String × RazorpayOrder)
  | [], _ => []
  | (k, o) :: rest, oid =>
    if k = oid then (k, ⟨o.id, o.amount, o.currency, o.receipt, "paid"⟩) :: rest
    else (k, o) :: setOrderPaid rest oid

/-- Model of `RazorpayClientMock.capture_upi_payment`.  The uuid-generated payment id
is passed in explicitly; `validate_money_is_inr` and the regex
`validate_upi_vpa` raise (modelled by `.error`) before the order lookup. -/
def capture_upi_payment (st : MockState) (order_id : String) (amount : Money)
    (vpa : String) (payment_id : String) : Except String (RazorpayPayment × MockState) :=
  if amount.currency ≠ "INR" then
    .error "Only INR currency is supported in Saleor India module"
  else if ¬ upi_vpa_regex_match vpa.data then .error "Invalid UPI VPA format"
  else if (st.orders.lookup order_id).isNone then
    .ok (⟨payment_id, order_id, amount, amount.currency, vpa, "failed",
          some "ORDER_NOT_FOUND", some "Order not found"⟩,
         ⟨st.orders, st.payments ++
          [(payment_id, ⟨payment_id, order_id, amount, amount.currency, vpa, "failed",
            some "ORDER_NOT_FOUND", some "Order not found"⟩)]⟩)
  else if amount.amount < 1 then
    .ok (⟨payment_id, order_id, amount, amount.currency, vpa, "failed",
          some "AMOUNT_TOO_LOW", some "Amount below minimum threshold"⟩,
         ⟨st.orders, st.payments ++
          [(payment_id, ⟨payment_id, order_id, amount, amount.currency, vpa, "failed",
            some "AMOUNT_TOO_LOW", some "Amount below minimum threshold"⟩)]⟩)
  else
    .ok (⟨payment_id, order_id, amount, amount.currency, vpa, "captured", none, none⟩,
         ⟨setOrderPaid st.orders order_id, st.payments ++
          [(payment_id, ⟨payment_id, order_id, amount, amount.currency, vpa, "captured",
            none, none⟩)]⟩)

theorem lookup_setOrderPaid (l : List (String × RazorpayOrder)) (oid : String) :
    (setOrderPaid l oid).lookup oid =
      (l.lookup oid).map (fun o => ⟨o.id, o.amount, o.currency, o.receipt, "paid"⟩) := by
  induction l with
  | nil => simp [setOrderPaid]
  | cons p rest ih =>
    obtain ⟨k, o⟩ := p
    by_cases hk : k = oid
    · subst hk
      simp [setOrderPaid, List.lookup]
    · have hbeq : (oid == k) = false := beq_eq_false_iff_ne.mpr (Ne.symm hk)
      simp only [setOrderPaid, if_neg hk, List.lookup, hbeq]
      exact ih

/-! ### C7 -/

/-- C7: with INR currency and a well-formed VPA, capturing against an existing
order with an amount below ₹1.00 returns a failed payment with
`AMOUNT_TOO_LOW` and leaves the order table unchanged; with an amount of at
least ₹1.00 the payment is captured and the order is marked paid; and a
captured result can only arise from an existing order and an amount of at
least ₹1.00. -/
theorem C7_capture_amount_threshold (st : MockState) (oid : String) (amount : Money)
    (vpa pid : String)
    (hinr : amount.currency = "INR")
    (hvpa : upi_vpa_regex_match vpa.data = true) :
    ((st.orders.lookup oid).isSome → amount.amount < 1 →
      ∃ p st2, capture_upi_payment st oid amount vpa pid = .ok (p, st2) ∧
        p.status = "failed" ∧ p.error_code = some "AMOUNT_TOO_LOW" ∧
        st2.orders = st.orders) ∧
    ((st.orders.lookup oid).isSome → 1 ≤ amount.amount →
      ∃ p st2, capture_upi_payment st oid amount vpa pid = .ok (p, st2) ∧
        p.status = "captured" ∧
        ∃ o, st.orders.lookup oid = some o ∧
          st2.orders.lookup oid = some ⟨o.id, o.amount, o.currency, o.receipt, "paid"⟩) ∧
    (∀ p st2, capture_upi_payment st oid amount vpa pid = .ok (p, st2) →
      p.status = "captured" → (st.orders.lookup oid).isSome ∧ 1 ≤ amount.amount) := by
  have hc : ¬ amount.currency ≠ "INR" := by simp [hinr]
  unfold capture_upi_payment
  rw [if_neg hc, if_neg (by simp [hvpa])]
  refine ⟨?_, ?_, ?_⟩
  · intro hsome hlt
    obtain ⟨o, ho⟩ := Option.isSome_iff_exists.mp hsome
    rw [if_neg (by simp [ho]), if_pos hlt]
    exact ⟨_, _, rfl, rfl, rfl, rfl⟩
  · intro hsome hge
    obtain ⟨o, ho⟩ := Option.isSome_iff_exists.mp hsome
    rw [if_neg (by simp [ho]), if_neg (not_lt.mpr hge)]
    refine ⟨_, _, rfl, rfl, o, ho, ?_⟩
    show (setOrderPaid st.orders oid).lookup oid = _
    rw [lookup_setOrderPaid, ho]
    rfl
  · intro p st2 hcap hstat
    split at hcap
    · obtain ⟨hp, -⟩ := Prod.mk.inj (Except.ok.inj hcap)
      rw [← hp] at hstat
      simp at hstat
    · split at hcap
      · obtain ⟨hp, -⟩ := Prod.mk.inj (Except.ok.inj hcap)
        rw [← hp] at hstat
        simp at hstat
      · rename_i hnone hlt
        refine ⟨?_, le_of_not_lt hlt⟩
        cases hlk : st.orders.lookup oid with
        | none => exact absurd (by simp [hlk]) hnone
        | some o => simp

/-- Witness for C7: a one-order mock state, a capture of ₹0.50 with a valid
VPA fails with `AMOUNT_TOO_LOW` and leaves the order table unchanged. -/
theorem C7_capture_amount_threshold_witness :
    ∃ p st2,
      capture_upi_payment
        ⟨[("order_1", ⟨"order_1", ⟨100, "INR"⟩, "INR", "r1", "created"⟩)], []⟩
        "order_1" ⟨1/2, "INR"⟩ "user@upi" "pay_1" = .ok (p, st2) ∧
      p.status = "failed" ∧ p.error_code = some "AMOUNT_TOO_LOW" ∧
      st2.orders =
        (MockState.mk [("order_1", ⟨"order_1", ⟨100, "INR"⟩, "INR", "r1", "created"⟩)]
          []).orders :=
  (C7_capture_amount_threshold
    ⟨[("order_1", ⟨"order_1", ⟨100, "INR"⟩, "INR", "r1", "created"⟩)], []⟩
    "order_1" ⟨1/2, "INR"⟩ "user@upi" "pay_1" rfl (by decide)).1
    (by decide) (by norm_num)

/-! ### C8 -/

/-- Characterization of the checkout-flow validator: it accepts exactly the
strings whose whitespace-stripped form splits at a unique `'@'` into a
username of at least 3 and a handle of at least 2 characters. -/
theorem flow_vpa_accepts_iff (vpa : List Char) :
    (razorpay_upi.validate_upi_vpa vpa).1 = true ↔
      ∃ u h, pyStrip vpa = u ++ '@' :: h ∧ '@' ∉ u ∧ '@' ∉ h ∧
        3 ≤ u.length ∧ 2 ≤ h.length := by
  constructor
  · intro hacc
    unfold razorpay_upi.validate_upi_vpa at hacc
    split at hacc
    · simp at hacc
    simp only [] at hacc
    split at hacc
    · simp at hacc
    cases hsp : pySplit '@' (pyStrip vpa) with
    | nil => exact absurd hsp (pySplit_ne_nil _ _)
    | cons u rest =>
      rw [hsp] at hacc
      cases rest with
      | nil => simp at hacc
      | cons h rest2 =>
        cases rest2 with
        | nil =>
          obtain ⟨hdec, hu, hh⟩ := (pySplit_eq_pair '@' (pyStrip vpa) u h).mp hsp
          by_cases hlu : u.length < 3
          · simp [hlu] at hacc
          · by_cases hlh : h.length < 2
            · simp [hlu, hlh] at hacc
            · exact ⟨u, h, hdec, hu, hh, by omega, by omega⟩
        | cons x rest3 => simp at hacc
  · rintro ⟨u, h, hdec, hu, hh, hl1, hl2⟩
    have hsp := (pySplit_eq_pair '@' (pyStrip vpa) u h).mpr ⟨hdec, hu, hh⟩
    have hnil : vpa ≠ [] := by
      intro hv
      subst hv
      exact absurd hdec.symm (by simp [pyStrip])
    have hat : (pyStrip vpa).contains '@' = true := by
      have hmem : '@' ∈ pyStrip vpa := by
        rw [hdec]
        exact List.mem_append_right _ (List.mem_cons_self _ _)
      simpa using hmem
    unfold razorpay_upi.validate_upi_vpa
    rw [if_neg hnil]
    simp only []
    rw [if_neg (not_not_intro hat), hsp]
    simp [show ¬ u.length < 3 by omega, show ¬ h.length < 2 by omega]

/-- Characterization of the regex body: it matches exactly the strings
splitting at a unique `'@'` into a username of 2-256 characters over
`[a-zA-Z0-9._\x2d]` and a handle of 3-64 ASCII letters. -/
theorem upi_vpa_regex_core_iff (s : List Char) :
    upi_vpa_regex_core s = true ↔
      ∃ u h, s = u ++ '@' :: h ∧ (∀ c ∈ u, isVpaUserChar c = true) ∧
        2 ≤ u.length ∧ u.length ≤ 256 ∧
        (∀ c ∈ h, isAsciiLetter c = true) ∧ 3 ≤ h.length ∧ h.length ≤ 64 := by
  constructor
  · intro hacc
    unfold upi_vpa_regex_core at hacc
    cases hsp : pySplit '@' s with
    | nil => exact absurd hsp (pySplit_ne_nil _ _)
    | cons u rest =>
      rw [hsp] at hacc
      cases rest with
      | nil => simp at hacc
      | cons h rest2 =>
        cases rest2 with
        | nil =>
          obtain ⟨hdec, -, -⟩ := (pySplit_eq_pair '@' s u h).mp hsp
          simp only [Bool.and_eq_true, decide_eq_true_eq, List.all_eq_true] at hacc
          obtain ⟨⟨⟨⟨⟨hA, hB⟩, hC⟩, hD⟩, hE⟩, hF⟩ := hacc
          exact ⟨u, h, hdec, hA, hB, hC, hD, hE, hF⟩
        | cons x rest3 => simp at hacc
  · rintro ⟨u, h, hdec, huc, hl1, hl2, hhc, hl3, hl4⟩
    have hu : '@' ∉ u := fun hm => absurd (huc _ hm) (by decide)
    have hh : '@' ∉ h := fun hm => absurd (hhc _ hm) (by decide)
    have hsp := (pySplit_eq_pair '@' s u h).mpr ⟨hdec, hu, hh⟩
    unfold upi_vpa_regex_core
    rw [hsp]
    simp only [Bool.and_eq_true, decide_eq_true_eq, List.all_eq_true]
    exact ⟨⟨⟨⟨⟨huc, hl1⟩, hl2⟩, hhc⟩, hl3⟩, hl4⟩

/-- Characterization of the mock-gateway regex `_UPI_VPA_RE.match`: it accepts
exactly the strings splitting at a unique `'@'` into a username of 2-256
characters over `[a-zA-Z0-9._\x2d]` and a handle of 3-64 ASCII letters,
optionally followed by one trailing newline (Python `'$'` also matches just
before a newline at the end of the string). -/
theorem upi_vpa_regex_match_iff (s : List Char) :
    upi_vpa_regex_match s = true ↔
      ∃ u h, (s = u ++ '@' :: h ∨ s = u ++ '@' :: (h ++ ['\n'])) ∧
        (∀ c ∈ u, isVpaUserChar c = true) ∧
        2 ≤ u.length ∧ u.length ≤ 256 ∧
        (∀ c ∈ h, isAsciiLetter c = true) ∧ 3 ≤ h.length ∧ h.length ≤ 64 := by
  unfold upi_vpa_regex_match
  constructor
  · intro hacc
    rw [Bool.or_eq_true] at hacc
    rcases hacc with hcore | hnl
    · obtain ⟨u, h, hdec, hA, hB, hC, hD, hE, hF⟩ := (upi_vpa_regex_core_iff s).mp hcore
      exact ⟨u, h, Or.inl hdec, hA, hB, hC, hD, hE, hF⟩
    · rw [Bool.and_eq_true] at hnl
      obtain ⟨hlastb, hcore⟩ := hnl
      have hlast : s.getLast? = some '\n' := by rwa [beq_iff_eq] at hlastb
      have hne : s ≠ [] := by
        intro h0
        subst h0
        simp at hlast
      have hs : s.dropLast ++ ['\n'] = s := by
        have hgl : s.getLast hne = '\n' := by
          rw [List.getLast?_eq_getLast s hne] at hlast
          exact Option.some.inj hlast
        rw [← hgl]
        exact List.dropLast_append_getLast hne
      obtain ⟨u, h, hdec, hA, hB, hC, hD, hE, hF⟩ :=
        (upi_vpa_regex_core_iff s.dropLast).mp hcore
      refine ⟨u, h, Or.inr ?_, hA, hB, hC, hD, hE, hF⟩
      rw [← hs, hdec]
      simp
  · rintro ⟨u, h, hdec | hdec, hA, hB, hC, hD, hE, hF⟩
    · rw [Bool.or_eq_true]
      exact Or.inl ((upi_vpa_regex_core_iff s).mpr ⟨u, h, hdec, hA, hB, hC, hD, hE, hF⟩)
    · rw [Bool.or_eq_true]
      right
      have hs : s = (u ++ '@' :: h) ++ ['\n'] := by
        rw [hdec]
        simp
      rw [Bool.and_eq_true]
      constructor
      · rw [hs, List.getLast?_concat]
        simp
      · rw [hs, List.dropLast_concat]
        exact (upi_vpa_regex_core_iff _).mpr ⟨u, h, rfl, hA, hB, hC, hD, hE, hF⟩

/-- A VPA rejected by `_UPI_VPA_RE` makes `capture_upi_payment` fail before
the order lookup, with no successor state, whatever the gateway state is. -/
theorem capture_vpa_error (st : MockState) (oid : String) (amount : Money)
    (vpa pid : String) (hinr : amount.currency = "INR")
    (hbad : upi_vpa_regex_match vpa.data = false) :
    capture_upi_payment st oid amount vpa pid = .error "Invalid UPI VPA format" := by
  unfold capture_upi_payment
  rw [if_neg (by simp [hinr]), if_pos (by simp [hbad])]

/-- C8 counterexample: the mock-flow validator `_UPI_VPA_RE` (used by
`capture_upi_payment` via validators.validate_upi_vpa) accepts `"ab@xyz"`,
whose username - the part before the string's unique `'@'` - has only 2
characters, although the claim requires a username of at least 3 characters
to be accepted. -/
theorem C8_regex_username_counterexample :
    upi_vpa_regex_match "ab@xyz".data = true ∧
    pySplit '@' "ab@xyz".data = [['a', 'b'], ['x', 'y', 'z']] ∧
    (['a', 'b'] : List Char).length < 3 := by
  decide

/-- C8 amended: the two VPA validators accept different languages.  The
checkout-flow validator (upi.py) accepts a string iff its whitespace-stripped
form contains exactly one `'@'` splitting it into a username of at least 3
and a handle of at least 2 characters; the mock-gateway regex `_UPI_VPA_RE`
(validators.py) accepts iff the string splits at a unique `'@'` into a
username of 2-256 characters over letters, digits, `'.'`, `'_'`, `'-'` and a
handle of 3-64 ASCII letters, optionally followed by one trailing newline
(Python `'$'` semantics); and in the mock gateway a VPA rejected by that
regex fails before any order lookup or state change. -/
theorem C8_vpa_validation :
    (∀ vpa : List Char, (razorpay_upi.validate_upi_vpa vpa).1 = true ↔
      ∃ u h, pyStrip vpa = u ++ '@' :: h ∧ '@' ∉ u ∧ '@' ∉ h ∧
        3 ≤ u.length ∧ 2 ≤ h.length) ∧
    (∀ s : List Char, upi_vpa_regex_match s = true ↔
      ∃ u h, (s = u ++ '@' :: h ∨ s = u ++ '@' :: (h ++ ['\n'])) ∧
        (∀ c ∈ u, isVpaUserChar c = true) ∧
        2 ≤ u.length ∧ u.length ≤ 256 ∧
        (∀ c ∈ h, isAsciiLetter c = true) ∧ 3 ≤ h.length ∧ h.length ≤ 64) ∧
    (∀ (st : MockState) (oid : String) (amount : Money) (vpa pid : String),
      amount.currency = "INR" → upi_vpa_regex_match vpa.data = false →
      capture_upi_payment st oid amount vpa pid = .error "Invalid UPI VPA format") :=
  ⟨flow_vpa_accepts_iff, upi_vpa_regex_match_iff, capture_vpa_error⟩

/-- Witness for C8: the mock gateway rejects the malformed VPA `"x@y"` before
any order lookup (the order table is empty and the error is still the VPA
error, not `ORDER_NOT_FOUND`), and the checkout-flow validator accepts
`"abc@de"` (username of 3, handle of 2). -/
theorem C8_vpa_validation_witness :
    capture_upi_payment ⟨[], []⟩ "order_1" ⟨5, "INR"⟩ "x@y" "pay_1" =
      .error "Invalid UPI VPA format" ∧
    (razorpay_upi.validate_upi_vpa "abc@de".data).1 = true :=
  ⟨C8_vpa_validation.2.2 ⟨[], []⟩ "order_1" ⟨5, "INR"⟩ "x@y" "pay_1" rfl (by decide),
   (C8_vpa_validation.1 "abc@de".data).mpr
     ⟨['a', 'b', 'c'], ['d', 'e'], by decide, by decide, by decide, by decide, by decide⟩⟩

/-! ### address.py : state registry and lookup -/

/-- Python `str.strip()` on `String`. -/
def strStrip (s : String) : String := ⟨pyStrip s.data⟩

/-- Python `str.upper()` on `String` (ASCII model). -/
def strUpper (s : String) : String := ⟨pyUpper s.data⟩

/-- Model of `needle in hay` for Python strings: contiguous-substring test. -/
def isSubstringOf (needle hay : List Char) : Bool := hay.tails.any (needle.isPrefixOf ·)

/-- The `INDIAN_STATES` dict (insertion order preserved); note that both
`"28"` and `"37"` map to `"Andhra Pradesh"`. -/
def INDIAN_STATES : List (String × String) :=
  [("01", "Jammu and Kashmir"), ("02", "Himachal Pradesh"), ("03", "Punjab"),
   ("04", "Chandigarh"), ("05", "Uttarakhand"), ("06", "Haryana"), ("07", "Delhi"),
   ("08", "Rajasthan"), ("09", "Uttar Pradesh"), ("10", "Bihar"), ("11", "Sikkim"),
   ("12", "Arunachal Pradesh"), ("13", "Nagaland"), ("14", "Manipur"),
   ("15", "Mizoram"), ("16", "Tripura"), ("17", "Meghalaya"), ("18", "Assam"),
   ("19", "West Bengal"), ("20", "Jharkhand"), ("21", "Odisha"),
   ("22", "Chhattisgarh"), ("23", "Madhya Pradesh"), ("24", "Gujarat"),
   ("25", "Daman and Diu"), ("26", "Dadra and Nagar Haveli"), ("27", "Maharashtra"),
   ("28", "Andhra Pradesh"), ("29", "Karnataka"), ("30", "Goa"),
   ("31", "Lakshadweep"), ("32", "Kerala"), ("33", "Tamil Nadu"),
   ("34", "Puducherry"), ("35", "Andaman and Nicobar Islands"), ("36", "Telangana"),
   ("37", "Andhra Pradesh"), ("38", "Ladakh")]

/-- Model of `d[k] = v` on an insertion-ordered dict: overwrite in place or append. -/
def dictInsert {β : Type} (k : String) (v : β) :
    List (String × β) → List (String × β)
  | [] => [(k, v)]
  | (k', v') :: rest =>
    if k' = k then (k, v) :: rest else (k', v') :: dictInsert k v rest

/-- Model of `STATE_NAME_TO_CODE = {v.upper(): k for k, v in INDIAN_STATES.items()}`:
a dict comprehension, so a later duplicate name overwrites the earlier code in
place. `"ANDHRA PRADESH"` ends up mapping to `"37"`. -/
def STATE_NAME_TO_CODE : List (String × String) :=
  INDIAN_STATES.foldl (fun d kv => dictInsert (strUpper kv.2) kv.1 d) []

/-- Model of `validate_indian_state` from address.py:
`(is_valid, state_code, error_message)`. -/
def validate_indian_state (state : String) : Bool × Option String × Option String :=
  if state = "" then (false, none, some "State is required")
  else
    let s := strStrip state
    if s.length = 2 ∧ s.data.all isDigit09 then
      if (INDIAN_STATES.lookup s).isSome then (true, some s, none)
      else (false, none, some "Invalid state code")
    else
      match STATE_NAME_TO_CODE.lookup (strUpper s) with
      | some code => (true, some code, none)
      | none =>
        match STATE_NAME_TO_CODE.find?
            (fun p => isSubstringOf (strUpper s).data p.1.data ||
                      isSubstringOf p.1.data (strUpper s).data) with
        | some p => (true, some p.2, none)
        | none => (false, none, some "Invalid state name or code")

/-- Model of `get_state_code` from address.py. -/
def get_state_code (state : String) : Option String :=
  if (validate_indian_state state).1 then (validate_indian_state state).2.1 else none

theorem lookup_mem {β : Type} {l : List (String × β)} {k : String} {v : β}
    (h : l.lookup k = some v) : (k, v) ∈ l := by
  induction l with
  | nil => simp [List.lookup] at h
  | cons p rest ih =>
    obtain ⟨k', v'⟩ := p
    rw [List.lookup] at h
    by_cases hk : k == k'
    · have hkk : k = k' := eq_of_beq hk
      subst hkk
      simp only [hk] at h
      obtain rfl : v' = v := by simpa using h
      exact List.mem_cons_self _ _
    · have hfalse : (k == k') = false := by simpa using hk
      simp only [hfalse] at h
      exact List.mem_cons_of_mem _ (ih h)

/-- No entry of the reversed name map carries code `"28"`: the later
`"37" : "Andhra Pradesh"` entry overwrote it. -/
theorem state_name_values_ne_28 : ∀ p ∈ STATE_NAME_TO_CODE, p.2 ≠ "28" := by
  decide

/-! ### C9 -/

/-- C9: name-to-code lookup never returns `"28"`: `get_state_code` resolves
`"Andhra Pradesh"` to `"37"`, and any input resolving to `"28"` must be the
two-digit code itself (its stripped form is the string `"28"`). -/
theorem C9_andhra_code_unreachable :
    get_state_code "Andhra Pradesh" = some "37" ∧
    ∀ s : String, get_state_code s = some "28" → strStrip s = "28" := by
  refine ⟨by decide, ?_⟩
  intro s h
  unfold get_state_code at h
  split at h
  · rename_i hvalid
    unfold validate_indian_state at h
    split at h
    · simp at h
    · simp only [] at h
      split at h
      · split at h
        · simpa using h
        · simp at h
      · cases hlk : STATE_NAME_TO_CODE.lookup (strUpper (strStrip s)) with
        | some code =>
          rw [hlk] at h
          obtain rfl : code = "28" := by simpa using h
          exact absurd rfl (state_name_values_ne_28 _ (lookup_mem hlk))
        | none =>
          rw [hlk] at h
          cases hfd : STATE_NAME_TO_CODE.find?
              (fun p => isSubstringOf (strUpper (strStrip s)).data p.1.data ||
                        isSubstringOf p.1.data (strUpper (strStrip s)).data) with
          | some p =>
            rw [hfd] at h
            have hmem := List.mem_of_find?_eq_some hfd
            have hp2 : p.2 = "28" := by simpa using h
            exact absurd hp2 (state_name_values_ne_28 _ hmem)
          | none =>
            rw [hfd] at h
            simp at h
  · simp at h

/-- Witness for C9: the only way to reach code `"28"` is the literal code. -/
theorem C9_andhra_code_unreachable_witness : strStrip "28" = "28" :=
  C9_andhra_code_unreachable.2 "28" (by decide)
